import Mathlib

/-!
Verification of the OpenClaw / ClawFace gateway usage-tracking core:
model-name normalization (`modelNormalizer.ts`), the two JSONL log
scanners (`claudeLogScanner.ts`, `codexLogScanner.ts`) and the usage
ledger (`aiUsageTracker.ts`).

JavaScript strings are modelled as `List Char` (`JStr`), JS numbers
appearing as token counts as `Int` (clamped/floored exactly where the
source clamps or floors), and dollar amounts as exact rationals `ℚ`.
Per-line JSON parsing is modelled by structures mirroring the parsed
object shape; raw-text pre-filters (the `line.includes(...)` speed
guards) are performance guards in the source and are not modelled.
The local-timezone day-key computation (`dayKeyFromISO`) depends on the
ambient timezone, so it is passed as an explicit function parameter.
-/

/-- JS strings, modelled as lists of characters. -/
abbrev JStr := List Char

/-- Whitespace recognized by `String.prototype.trim` (ASCII part). -/
def isJsWhitespace (c : Char) : Bool :=
  c = ' ' || c = '\t' || c = '\n' || c = '\r' || c = '\x0b' || c = '\x0c'

/-- JS `String.prototype.trim`: drop leading and trailing whitespace. -/
def jsTrim (l : JStr) : JStr :=
  ((l.dropWhile isJsWhitespace).reverse.dropWhile isJsWhitespace).reverse

/-- Index of the first occurrence of `needle` in `hay` (JS `String.prototype.indexOf`),
`none` when absent. -/
def indexOfSub : JStr → JStr → Option Nat
  | [], needle => if needle = [] then some 0 else none
  | c :: rest, needle =>
    if needle.isPrefixOf (c :: rest) then some 0
    else (indexOfSub rest needle).map (· + 1)

/-- Index of the last occurrence of character `c` (JS `String.prototype.lastIndexOf`). -/
def lastIdxOf (l : JStr) (c : Char) : Option Nat :=
  (l.reverse.indexOf? c).map (fun i => l.length - 1 - i)

/-- Split a list on a separator character (JS `String.prototype.split`). -/
def splitOnChar (sep : Char) : JStr → List JStr
  | [] => [[]]
  | c :: rest =>
    let r := splitOnChar sep rest
    if c = sep then [] :: r
    else match r with
      | [] => [[c]]
      | h :: t => (c :: h) :: t

-- ============================================================================
-- Model normalizer (src/gateway/src/modelNormalizer.ts)
-- ============================================================================

/-- `KNOWN_CLAUDE_BASES` from modelNormalizer.ts. -/
def KNOWN_CLAUDE_BASES : List JStr :=
  [ "claude-haiku-4-5".toList
  , "claude-opus-4-5".toList
  , "claude-sonnet-4-5".toList
  , "claude-opus-4-20250514".toList
  , "claude-opus-4-1".toList
  , "claude-sonnet-4-20250514".toList
  , "claude-opus-4-6".toList ]

/-- `KNOWN_CODEX_BASES` from modelNormalizer.ts. -/
def KNOWN_CODEX_BASES : List JStr :=
  [ "gpt-5".toList, "gpt-5.1".toList, "gpt-5.2".toList ]

/-- Strip the `"openai/"` vendor path marker from the front
(`trimmed.startsWith('openai/')` branch of `normalizeCodexModel`). -/
def stripVendorOpenai (s : JStr) : JStr :=
  if "openai/".toList.isPrefixOf s then s.drop 7 else s

/-- Strip a `-codex` marker when the base name is a known model
(the `codexIdx` branch of `normalizeCodexModel`). -/
def stripCodexMarker (s : JStr) : JStr :=
  match indexOfSub s "-codex".toList with
  | some i =>
    let base := s.take i
    if base ∈ KNOWN_CODEX_BASES then base else s
  | none => s

/-- `normalizeCodexModel` from modelNormalizer.ts. -/
def normalizeCodexModel (raw : JStr) : JStr :=
  stripCodexMarker (stripVendorOpenai (jsTrim raw))

/-- Strip the `"anthropic."` vendor marker from the front
(`trimmed.startsWith('anthropic.')` branch of `normalizeClaudeModel`). -/
def stripVendorAnthropic (s : JStr) : JStr :=
  if "anthropic.".toList.isPrefixOf s then s.drop 10 else s

/-- Vertex AI nested-path handling of `normalizeClaudeModel`: when the string
contains `claude-` and the segment after the last dot starts with `claude-`,
keep only that tail. -/
def extractClaudeTail (s : JStr) : JStr :=
  if (indexOfSub s "claude-".toList).isSome then
    match lastIdxOf s '.' with
    | some i =>
      let tail := s.drop (i + 1)
      if "claude-".toList.isPrefixOf tail then tail else s
    | none => s
  else s

/-- Length of a suffix matching the regex `-v\d+:\d+$` (on the reversed list),
`none` when the regex does not match. -/
def versionMarkerLen (r : JStr) : Option Nat :=
  let d2 := r.takeWhile Char.isDigit
  if d2 = [] then none
  else match r.drop d2.length with
    | ':' :: r2 =>
      let d1 := r2.takeWhile Char.isDigit
      if d1 = [] then none
      else match r2.drop d1.length with
        | 'v' :: '-' :: _ => some (d2.length + 1 + d1.length + 2)
        | _ => none
    | _ => none

/-- Strip a trailing `-vN:M` version marker (the `versionMatch` branch of
`normalizeClaudeModel`). -/
def stripVersionMarker (s : JStr) : JStr :=
  match versionMarkerLen s.reverse with
  | some n => s.take (s.length - n)
  | none => s

/-- JS `s.replace('@', '-')`: replace only the first occurrence of `@`. -/
def replaceFirstAt : JStr → JStr
  | [] => []
  | c :: rest => if c = '@' then '-' :: rest else c :: replaceFirstAt rest

/-- Strip a trailing `-YYYYMMDD` date marker when the base name is a known
model (the `dateMatch` branch of `normalizeClaudeModel`).  The regex
`-\d{8}$` matches exactly when the last eight characters are digits and the
ninth-from-last character is `-`. -/
def stripDateMarker (s : JStr) : JStr :=
  let r := s.reverse
  let d := r.take 8
  if d.length == 8 && d.all Char.isDigit && (r.drop 8).head? == some '-' then
    let base := s.take (s.length - 9)
    if base ∈ KNOWN_CLAUDE_BASES then base else s
  else s

/-- `normalizeClaudeModel` from modelNormalizer.ts. -/
def normalizeClaudeModel (raw : JStr) : JStr :=
  stripDateMarker (replaceFirstAt (stripVersionMarker
    (extractClaudeTail (stripVendorAnthropic (jsTrim raw)))))

-- A few concrete sanity checks of the embedding against the comments/tests
-- of the source file.
example : normalizeCodexModel "openai/gpt-5".toList = "gpt-5".toList := by decide
example : normalizeCodexModel "gpt-5-codex".toList = "gpt-5".toList := by decide
example : normalizeCodexModel "gpt-5.2-codex".toList = "gpt-5.2".toList := by decide
example :
    normalizeClaudeModel "us.anthropic.claude-sonnet-4-5-20250929-v1:0".toList
      = "claude-sonnet-4-5".toList := by decide
example :
    normalizeClaudeModel "claude-opus-4-5@20251101".toList
      = "claude-opus-4-5".toList := by decide
example :
    normalizeClaudeModel "claude-sonnet-4-5-20250929".toList
      = "claude-sonnet-4-5".toList := by decide

-- ============================================================================
-- JSON field values and the `toInt` helper shared by both scanners
-- ============================================================================

/-- A parsed JSON field value, as the scanners' `toInt` helper sees it:
a number, a string, `null`, or any other shape. -/
inductive JsonVal where
  | num (q : ℚ)
  | str (s : JStr)
  | null
  | other
deriving DecidableEq, Repr

/-- Numeric value of a digit string. -/
def digitsToNat (l : JStr) : Nat :=
  l.foldl (fun a c => a * 10 + (c.toNat - '0'.toNat)) 0

/-- JS `parseInt(s, 10)` (`none` models `NaN`): skip leading whitespace,
optional sign, then a leading run of decimal digits. -/
def parseIntJs (s : JStr) : Option Int :=
  let t := s.dropWhile isJsWhitespace
  match t with
  | '-' :: r =>
    let d := r.takeWhile Char.isDigit
    if d = [] then none else some (-(digitsToNat d : Int))
  | '+' :: r =>
    let d := r.takeWhile Char.isDigit
    if d = [] then none else some (digitsToNat d : Int)
  | _ =>
    let d := t.takeWhile Char.isDigit
    if d = [] then none else some (digitsToNat d : Int)

/-- `Math.floor` on an exact rational, written with `Int.fdiv` so that the
kernel can evaluate it (it equals Mathlib's `⌊q⌋`, see `ratFloor_eq_floor`). -/
def ratFloor (q : ℚ) : ℤ := q.num.fdiv q.den

/-- The `toInt` helper of both scanners: numbers are floored, strings go
through `parseInt(value, 10) || 0`, anything else (including an absent
field) is `0`. -/
def toInt (v : Option JsonVal) : Int :=
  match v with
  | some (.num q) => ratFloor q
  | some (.str s) => match parseIntJs s with | some n => n | none => 0
  | _ => 0

/-- JS nullish coalescing `a ?? b` on possibly-absent, possibly-null JSON
field values. -/
def jsCoalesce (a b : Option JsonVal) : Option JsonVal :=
  match a with
  | none => b
  | some .null => b
  | some v => some v

/-- JS Map field update (`Map.prototype.set`): overwrite the value of an
existing key in place (keeping its original insertion position), or append
a new binding at the end. -/
def mapSet {β : Type} : List (JStr × β) → JStr → β → List (JStr × β)
  | [], k, v => [(k, v)]
  | (k', v') :: rest, k, v =>
    if k' = k then (k', v) :: rest else (k', v') :: mapSet rest k v

-- ============================================================================
-- Claude log scanner (src/gateway/src/claudeLogScanner.ts)
-- ============================================================================

/-- `ClaudeUsageEntry` from claudeLogScanner.ts. -/
structure ClaudeUsageEntry where
  dayKey : JStr
  model : JStr
  inputTokens : Int
  outputTokens : Int
  cacheReadInputTokens : Int
  cacheCreationInputTokens : Int
  timestamp : JStr
  costUSD : Option ℚ
deriving DecidableEq, Repr

/-- The `usage` sub-object of a parsed Claude log line. -/
structure ClaudeUsage where
  input_tokens : Option JsonVal := none
  output_tokens : Option JsonVal := none
  cache_read_input_tokens : Option JsonVal := none
  cache_creation_input_tokens : Option JsonVal := none
deriving DecidableEq, Repr

/-- The `message` sub-object of a parsed Claude log line. -/
structure ClaudeMessage where
  id : Option JStr := none
  model : Option JStr := none
  usage : Option ClaudeUsage := none
deriving DecidableEq, Repr

/-- A parsed Claude JSONL log line (the object produced by `JSON.parse`,
restricted to the fields `parseFile` reads). -/
structure ClaudeLogLine where
  type : Option JStr := none
  timestamp : Option JStr := none
  message : Option ClaudeMessage := none
  costUSD : Option JsonVal := none
  requestId : Option JStr := none
deriving DecidableEq, Repr

namespace ClaudeLogScanner

/-- The per-line body of `ClaudeLogScanner.parseFile` (lines 311-361): the
checks applied to one parsed line, the entry it builds, and the dedup key
(`message.id + ':' + requestId`) when both ids are present (truthy).
Returns `none` when the line is skipped.  `dayKeyFromISO` (a local-timezone
computation) is passed as a function parameter. -/
def processLine (dayKeyFromISO : JStr → Option JStr) (line : ClaudeLogLine) :
    Option (ClaudeUsageEntry × Option JStr) :=
  if line.type ≠ some "assistant".toList then none else
  match line.timestamp with
  | none => none
  | some tsText =>
    if tsText = [] then none else
    match dayKeyFromISO tsText with
    | none => none
    | some dayKey =>
      if dayKey = [] then none else
      match line.message with
      | none => none
      | some message =>
        match message.model with
        | none => none
        | some model =>
          if model = [] ∨ model = "<synthetic>".toList then none else
          match message.usage with
          | none => none
          | some usage =>
            let inputTokens := max 0 (toInt usage.input_tokens)
            let outputTokens := max 0 (toInt usage.output_tokens)
            let cacheReadInputTokens := max 0 (toInt usage.cache_read_input_tokens)
            let cacheCreationInputTokens := max 0 (toInt usage.cache_creation_input_tokens)
            if inputTokens = 0 ∧ outputTokens = 0 ∧
                cacheReadInputTokens = 0 ∧ cacheCreationInputTokens = 0 then none else
            let costUSD : Option ℚ :=
              match line.costUSD with
              | some (.num q) => some q
              | _ => none
            let entry : ClaudeUsageEntry :=
              { dayKey := dayKey
                model := normalizeClaudeModel model
                inputTokens := inputTokens
                outputTokens := outputTokens
                cacheReadInputTokens := cacheReadInputTokens
                cacheCreationInputTokens := cacheCreationInputTokens
                timestamp := tsText
                costUSD := costUSD }
            let key : Option JStr :=
              match message.id, line.requestId with
              | some mid, some rid =>
                if mid ≠ [] ∧ rid ≠ [] then some (mid ++ ':' :: rid) else none
              | _, _ => none
            some (entry, key)

/-- Accumulator state of `parseFile`'s loop: the `entryByKey` map (insertion
ordered) and the `keylessEntries` list. -/
abbrev ParseAcc := List (JStr × ClaudeUsageEntry) × List ClaudeUsageEntry

/-- One loop iteration of `parseFile`: keyed entries go through
`entryByKey.set` (later occurrences overwrite the stored value),
keyless entries are appended. -/
def step (dayKeyFromISO : JStr → Option JStr) (acc : ParseAcc)
    (line : ClaudeLogLine) : ParseAcc :=
  match processLine dayKeyFromISO line with
  | none => acc
  | some (e, none) => (acc.1, acc.2 ++ [e])
  | some (e, some k) => (mapSet acc.1 k e, acc.2)

/-- `ClaudeLogScanner.parseFile` on an already-split list of parsed lines:
fold the per-line step, then return `[...entryByKey.values(), ...keylessEntries]`. -/
def parseFile (dayKeyFromISO : JStr → Option JStr)
    (lines : List ClaudeLogLine) : List ClaudeUsageEntry :=
  let r := lines.foldl (step dayKeyFromISO) ([], [])
  r.1.map Prod.snd ++ r.2

/-- The dedup keys contributed by a list of lines, in order. -/
def keysOf (dayKeyFromISO : JStr → Option JStr)
    (lines : List ClaudeLogLine) : List JStr :=
  lines.filterMap (fun l => (processLine dayKeyFromISO l).bind (·.2))

end ClaudeLogScanner

-- ============================================================================
-- Codex log scanner (src/gateway/src/codexLogScanner.ts)
-- ============================================================================

/-- `CodexUsageEntry` from codexLogScanner.ts. -/
structure CodexUsageEntry where
  dayKey : JStr
  model : JStr
  inputTokens : Int
  cachedInputTokens : Int
  outputTokens : Int
  timestamp : JStr
deriving DecidableEq, Repr

/-- `CumulativeTotals` from codexLogScanner.ts. -/
structure CumulativeTotals where
  input : Int
  cached : Int
  output : Int
deriving DecidableEq, Repr

/-- A `total_token_usage` / `last_token_usage` sub-object. -/
structure CodexTokenUsage where
  input_tokens : Option JsonVal := none
  cached_input_tokens : Option JsonVal := none
  cache_read_input_tokens : Option JsonVal := none
  output_tokens : Option JsonVal := none
deriving DecidableEq, Repr

/-- The `payload.info` sub-object of a parsed Codex log line. -/
structure CodexInfo where
  model : Option JStr := none
  model_name : Option JStr := none
  total_token_usage : Option CodexTokenUsage := none
  last_token_usage : Option CodexTokenUsage := none
deriving DecidableEq, Repr

/-- The `payload` sub-object of a parsed Codex log line. -/
structure CodexPayload where
  type : Option JStr := none
  model : Option JStr := none
  info : Option CodexInfo := none
deriving DecidableEq, Repr

/-- A parsed Codex JSONL log line (the object produced by `JSON.parse`,
restricted to the fields `parseFile` reads). -/
structure CodexLogLine where
  type : Option JStr := none
  timestamp : Option JStr := none
  payload : Option CodexPayload := none
  model : Option JStr := none
deriving DecidableEq, Repr

namespace CodexLogScanner

/-- The cumulative-totals branch of `CodexLogScanner.parseFile`
(lines 354-364): read the current totals with `toInt`, emit
`max(0, current - previous)` per category, and advance the carried totals
to the current ones.  Returns `((deltaInput, deltaCached, deltaOutput),
newPreviousTotals)`. -/
def computeTotalDeltas (total : CodexTokenUsage)
    (previousTotals : Option CumulativeTotals) :
    (Int × Int × Int) × CumulativeTotals :=
  let input := toInt total.input_tokens
  let cached := toInt (jsCoalesce total.cached_input_tokens total.cache_read_input_tokens)
  let output := toInt total.output_tokens
  let deltaInput := max 0 (input - ((previousTotals.map (·.input)).getD 0))
  let deltaCached := max 0 (cached - ((previousTotals.map (·.cached)).getD 0))
  let deltaOutput := max 0 (output - ((previousTotals.map (·.output)).getD 0))
  ((deltaInput, deltaCached, deltaOutput), ⟨input, cached, output⟩)

/-- The model-resolution expression of `CodexLogScanner.parseFile`
(lines 340-344): `info?.model ?? info?.model_name ?? payload.model ??
obj.model`, then `?? currentModel ?? 'gpt-5'`. -/
def resolveModel (line : CodexLogLine) (payload : CodexPayload)
    (info : Option CodexInfo) (currentModel : Option JStr) : JStr :=
  let modelFromInfo :=
    (((info.bind (·.model)).or (info.bind (·.model_name))).or payload.model).or line.model
  (modelFromInfo.or currentModel).getD "gpt-5".toList

/-- The per-line body of `CodexLogScanner.parseFile` (lines 291-388) on one
parsed line, carrying `currentModel` and `previousTotals` through.  Returns
the entries emitted by this line (zero or one) and the updated carried
state.  `dayKeyFromISO` is passed as a function parameter. -/
def processLine (dayKeyFromISO : JStr → Option JStr) (line : CodexLogLine)
    (currentModel : Option JStr) (previousTotals : Option CumulativeTotals) :
    List CodexUsageEntry × Option JStr × Option CumulativeTotals :=
  if line.type = some "turn_context".toList then
    match line.payload with
    | none => ([], currentModel, previousTotals)
    | some payload =>
      let modelFromPayload := payload.model
      let modelFromInfo := (payload.info).bind (·.model)
      ([], (modelFromPayload.or modelFromInfo).or currentModel, previousTotals)
  else if line.type ≠ some "event_msg".toList then ([], currentModel, previousTotals)
  else
  match line.timestamp with
  | none => ([], currentModel, previousTotals)
  | some tsText =>
    if tsText = [] then ([], currentModel, previousTotals) else
    match dayKeyFromISO tsText with
    | none => ([], currentModel, previousTotals)
    | some dayKey =>
      if dayKey = [] then ([], currentModel, previousTotals) else
      match line.payload with
      | none => ([], currentModel, previousTotals)
      | some payload =>
        if payload.type ≠ some "token_count".toList then
          ([], currentModel, previousTotals)
        else
        let info := payload.info
        let model := resolveModel line payload info currentModel
        match info.bind (·.total_token_usage) with
        | some total =>
          let r := computeTotalDeltas total previousTotals
          let deltaInput := r.1.1
          let deltaCached := r.1.2.1
          let deltaOutput := r.1.2.2
          let previousTotals' : Option CumulativeTotals := some r.2
          if deltaInput = 0 ∧ deltaCached = 0 ∧ deltaOutput = 0 then
            ([], currentModel, previousTotals')
          else
            let cachedClamped := min deltaCached deltaInput
            ([ { dayKey := dayKey
                 model := normalizeCodexModel model
                 inputTokens := deltaInput
                 cachedInputTokens := cachedClamped
                 outputTokens := deltaOutput
                 timestamp := tsText } ], currentModel, previousTotals')
        | none =>
          match info.bind (·.last_token_usage) with
          | some last =>
            let deltaInput := max 0 (toInt last.input_tokens)
            let deltaCached :=
              max 0 (toInt (jsCoalesce last.cached_input_tokens last.cache_read_input_tokens))
            let deltaOutput := max 0 (toInt last.output_tokens)
            if deltaInput = 0 ∧ deltaCached = 0 ∧ deltaOutput = 0 then
              ([], currentModel, previousTotals)
            else
              let cachedClamped := min deltaCached deltaInput
              ([ { dayKey := dayKey
                   model := normalizeCodexModel model
                   inputTokens := deltaInput
                   cachedInputTokens := cachedClamped
                   outputTokens := deltaOutput
                   timestamp := tsText } ], currentModel, previousTotals)
          | none => ([], currentModel, previousTotals)

/-- `CodexLogScanner.parseFile` on an already-split list of parsed lines,
from a given carried model and carried totals (the `initialModel` /
`initialTotals` parameters).  Returns the emitted entries together with the
final carried state, exactly as the source returns
`{ entries, lastModel, lastTotals }`. -/
def parseFile (dayKeyFromISO : JStr → Option JStr) :
    List CodexLogLine → Option JStr → Option CumulativeTotals →
    List CodexUsageEntry × Option JStr × Option CumulativeTotals
  | [], currentModel, previousTotals => ([], currentModel, previousTotals)
  | line :: rest, currentModel, previousTotals =>
    let r := processLine dayKeyFromISO line currentModel previousTotals
    let rr := parseFile dayKeyFromISO rest r.2.1 r.2.2
    (r.1 ++ rr.1, rr.2.1, rr.2.2)

end CodexLogScanner

-- ============================================================================
-- Usage ledger (src/gateway/src/aiUsageTracker.ts)
-- ============================================================================

/-- `AiProvider` from shared types.ts. -/
inductive AiProvider where
  | anthropic
  | openai
  | google
  | deepseek
  | other
deriving DecidableEq, Repr

/-- The `aboveThreshold` tier of a `PricingEntry`. -/
structure TierPricing where
  thresholdTokens : Int
  input : ℚ
  output : ℚ
  cacheRead : Option ℚ := none
  cacheCreation : Option ℚ := none
deriving DecidableEq, Repr

/-- `PricingEntry` from aiUsageTracker.ts; rates are USD per 1M tokens. -/
structure PricingEntry where
  input : ℚ
  output : ℚ
  cacheRead : Option ℚ := none
  cacheCreation : Option ℚ := none
  aboveThreshold : Option TierPricing := none
deriving DecidableEq, Repr

/-- `MODEL_PRICING` from aiUsageTracker.ts, as an association list keyed by
canonical model name. -/
def MODEL_PRICING : List (JStr × PricingEntry) :=
  [ ("gpt-5".toList, { input := 1.25, output := 10.0, cacheRead := some 0.125 })
  , ("gpt-5-codex".toList, { input := 1.25, output := 10.0, cacheRead := some 0.125 })
  , ("gpt-5.1".toList, { input := 1.25, output := 10.0, cacheRead := some 0.125 })
  , ("gpt-5.2".toList, { input := 1.75, output := 14.0, cacheRead := some 0.175 })
  , ("gpt-5.2-codex".toList, { input := 1.75, output := 14.0, cacheRead := some 0.175 })
  , ("gpt-4o".toList, { input := 2.50, output := 10.0 })
  , ("gpt-4o-mini".toList, { input := 0.15, output := 0.60 })
  , ("claude-haiku-4-5".toList,
      { input := 1.0, output := 5.0, cacheRead := some 0.1, cacheCreation := some 1.25 })
  , ("claude-haiku-4-5-20251001".toList,
      { input := 1.0, output := 5.0, cacheRead := some 0.1, cacheCreation := some 1.25 })
  , ("claude-opus-4-5".toList,
      { input := 5.0, output := 25.0, cacheRead := some 0.5, cacheCreation := some 6.25 })
  , ("claude-opus-4-5-20251101".toList,
      { input := 5.0, output := 25.0, cacheRead := some 0.5, cacheCreation := some 6.25 })
  , ("claude-sonnet-4-5".toList,
      { input := 3.0, output := 15.0, cacheRead := some 0.3, cacheCreation := some 3.75
        aboveThreshold := some
          { thresholdTokens := 200000, input := 6.0, output := 22.5
            cacheRead := some 0.6, cacheCreation := some 7.5 } })
  , ("claude-sonnet-4-5-20250929".toList,
      { input := 3.0, output := 15.0, cacheRead := some 0.3, cacheCreation := some 3.75
        aboveThreshold := some
          { thresholdTokens := 200000, input := 6.0, output := 22.5
            cacheRead := some 0.6, cacheCreation := some 7.5 } })
  , ("claude-opus-4-1".toList,
      { input := 15.0, output := 75.0, cacheRead := some 1.5, cacheCreation := some 18.75 })
  , ("claude-opus-4-20250514".toList,
      { input := 15.0, output := 75.0, cacheRead := some 1.5, cacheCreation := some 18.75 })
  , ("claude-opus-4-6".toList,
      { input := 5.0, output := 25.0, cacheRead := some 0.5, cacheCreation := some 6.25
        aboveThreshold := some
          { thresholdTokens := 200000, input := 10.0, output := 37.5
            cacheRead := some 1.0, cacheCreation := some 12.5 } })
  , ("claude-opus-4-6-20260205".toList,
      { input := 5.0, output := 25.0, cacheRead := some 0.5, cacheCreation := some 6.25
        aboveThreshold := some
          { thresholdTokens := 200000, input := 10.0, output := 37.5
            cacheRead := some 1.0, cacheCreation := some 12.5 } })
  , ("claude-sonnet-4-20250514".toList,
      { input := 3.0, output := 15.0, cacheRead := some 0.3, cacheCreation := some 3.75
        aboveThreshold := some
          { thresholdTokens := 200000, input := 6.0, output := 22.5
            cacheRead := some 0.6, cacheCreation := some 7.5 } })
  , ("gemini-2.0-flash".toList, { input := 0.10, output := 0.40 })
  , ("deepseek-v3".toList, { input := 0.27, output := 1.10 })
  , ("deepseek-r1".toList, { input := 0.55, output := 2.19 }) ]

/-- `MODEL_PRICING[model]`: first binding for the key, if any. -/
def pricingFor (model : JStr) : Option PricingEntry :=
  (MODEL_PRICING.find? (fun p => p.1 = model)).map (·.2)

/-- JS `Math.round` on an exact rational: round half toward positive infinity. -/
def jsRound (q : ℚ) : ℤ := ratFloor (q + 1 / 2)

/-- `Math.round(total * 1_000_000) / 1_000_000` from `calculateCost`. -/
def roundTo6 (q : ℚ) : ℚ := (jsRound (q * 1000000) : ℚ) / 1000000

/-- The `tieredCost` helper inside `AiUsageTracker.calculateCost`: when the
model has no above-threshold tier (or the tier lacks this category's rate),
price all tokens at the base rate; otherwise split the token count at the
threshold, pricing the below part at the base rate and the above part at
the tier rate. -/
def tieredCost (tokens : Int) (baseRate : ℚ) (aboveRate : Option ℚ)
    (threshold : Option Int) : ℚ :=
  match threshold, aboveRate with
  | some th, some ar =>
    let below := min tokens th
    let above := max (tokens - th) 0
    (below : ℚ) / 1000000 * baseRate + (above : ℚ) / 1000000 * ar
  | _, _ => (tokens : ℚ) / 1000000 * baseRate

/-- `AiUsageTracker.calculateCost` (lines 428-487), over exact rationals:
unknown models cost `0`; each token category is priced by `tieredCost`
against the same threshold; the sum is rounded to six decimal places. -/
def calculateCost (model : JStr) (inputTokens outputTokens : Int)
    (cacheReadTokens : Int := 0) (cacheCreationTokens : Int := 0) : ℚ :=
  match pricingFor model with
  | none => 0
  | some pricing =>
    let tier := pricing.aboveThreshold
    let threshold := tier.map (·.thresholdTokens)
    let inputCost := tieredCost (max 0 inputTokens) pricing.input (tier.map (·.input)) threshold
    let outputCost := tieredCost (max 0 outputTokens) pricing.output (tier.map (·.output)) threshold
    let cacheReadCost := tieredCost (max 0 cacheReadTokens) (pricing.cacheRead.getD 0)
      (tier.bind (·.cacheRead)) threshold
    let cacheCreationCost := tieredCost (max 0 cacheCreationTokens) (pricing.cacheCreation.getD 0)
      (tier.bind (·.cacheCreation)) threshold
    roundTo6 (inputCost + outputCost + cacheReadCost + cacheCreationCost)

/-- `AiUsageTracker.normalizeModel`: dispatch normalization by provider. -/
def normalizeModel (model : JStr) (provider : AiProvider) : JStr :=
  match provider with
  | .openai => normalizeCodexModel model
  | .anthropic => normalizeClaudeModel model
  | _ => jsTrim model

/-- The argument record of `AiUsageTracker.logRequest`
(`Omit<AiRequestLog, 'estimatedCost'>`). -/
structure AiRequestLogEntry where
  timestamp : Int
  provider : AiProvider
  model : JStr
  inputTokens : Int
  outputTokens : Int
  cacheReadInputTokens : Option Int := none
  cacheCreationInputTokens : Option Int := none
  source : JStr
  sessionId : Option JStr := none
deriving DecidableEq, Repr

/-- A stored `ai_requests` row (the AUTOINCREMENT `id` column carries no
information the claims touch and is left implicit in the list position). -/
structure AiRequestRow where
  timestamp : Int
  provider : AiProvider
  model : JStr
  inputTokens : Int
  outputTokens : Int
  cacheReadInputTokens : Int
  cacheCreationInputTokens : Int
  estimatedCost : ℚ
  source : JStr
  sessionId : Option JStr
deriving DecidableEq, Repr

/-- The column tuple of the unique index `idx_ai_requests_dedup`:
`(timestamp, provider, model, source, input_tokens, output_tokens)`. -/
def rowKey (r : AiRequestRow) : Int × AiProvider × JStr × JStr × Int × Int :=
  (r.timestamp, r.provider, r.model, r.source, r.inputTokens, r.outputTokens)

/-- The dedup-index tuple that `logRequest` inserts for a given argument
record: the model is normalized before insertion. -/
def entryKey (entry : AiRequestLogEntry) : Int × AiProvider × JStr × JStr × Int × Int :=
  (entry.timestamp, entry.provider, normalizeModel entry.model entry.provider,
    entry.source, entry.inputTokens, entry.outputTokens)

/-- The row built inside `AiUsageTracker.logRequest`: the model is
normalized, the cost is the pre-calculated one when supplied and the
pricing-table estimate otherwise, absent cache counts default to 0. -/
def logRow (entry : AiRequestLogEntry) (preCalculatedCost : Option ℚ) : AiRequestRow :=
  let normalizedModel := normalizeModel entry.model entry.provider
  let estimatedCost :=
    match preCalculatedCost with
    | some c => c
    | none => calculateCost normalizedModel entry.inputTokens entry.outputTokens
        (entry.cacheReadInputTokens.getD 0) (entry.cacheCreationInputTokens.getD 0)
  { timestamp := entry.timestamp
    provider := entry.provider
    model := normalizedModel
    inputTokens := entry.inputTokens
    outputTokens := entry.outputTokens
    cacheReadInputTokens := entry.cacheReadInputTokens.getD 0
    cacheCreationInputTokens := entry.cacheCreationInputTokens.getD 0
    estimatedCost := estimatedCost
    source := entry.source
    sessionId := entry.sessionId }

/-- `AiUsageTracker.logRequest` (lines 365-395) against a table with the
unique dedup index in place: `INSERT OR IGNORE` appends `logRow` unless a
row with the same dedup-index tuple is already stored, in which case the
statement is a no-op. -/
def logRequest (db : List AiRequestRow) (entry : AiRequestLogEntry)
    (preCalculatedCost : Option ℚ := none) : List AiRequestRow :=
  if db.any (fun r => rowKey r = entryKey entry) then db
  else db ++ [logRow entry preCalculatedCost]

/-- Number of stored rows sharing a dedup-index tuple. -/
def countKey (db : List AiRequestRow) (k : Int × AiProvider × JStr × JStr × Int × Int) : Nat :=
  (db.filter (fun r => rowKey r = k)).length

/-- The uniqueness invariant enforced by `idx_ai_requests_dedup`. -/
def atMostOnePerKey (db : List AiRequestRow) : Prop :=
  ∀ k, countKey db k ≤ 1

-- ============================================================================
-- Root-directory discovery (getProjectRoots / getSessionRoots)
-- ============================================================================

/-- Node `path.join` of two segments (POSIX), for the well-formed paths the
scanners build: concatenation with a single separator. -/
def joinPath (a b : JStr) : JStr :=
  if a = [] then b
  else if a.getLast? = some '/' then a ++ b
  else a ++ '/' :: b

/-- Node `path.basename` (POSIX): the last path segment, ignoring trailing
separators. -/
def jsBasename (p : JStr) : JStr :=
  let stripped := (p.reverse.dropWhile (· = '/')).reverse
  if stripped = [] then (if p = [] then [] else "/".toList)
  else match lastIdxOf stripped '/' with
    | some i => stripped.drop (i + 1)
    | none => stripped

/-- `ClaudeLogScanner.getProjectRoots` (lines 135-157) as a function of the
`CLAUDE_CONFIG_DIR` environment value and the home directory: when the
variable is set (truthy after trimming), split it on commas, trim each
part, drop empty parts, use a part as-is when its basename is already
`projects` and append `/projects` otherwise; else fall back to the two
default roots. -/
def getProjectRoots (claudeConfigDir : Option JStr) (home : JStr) : List JStr :=
  let envVal := claudeConfigDir.map jsTrim
  match envVal with
  | some v =>
    if v = [] then
      [ joinPath (joinPath (joinPath home ".config".toList) "claude".toList) "projects".toList
      , joinPath (joinPath home ".claude".toList) "projects".toList ]
    else
      (splitOnChar ',' v).filterMap (fun part =>
        let trimmed := jsTrim part
        if trimmed = [] then none
        else if jsBasename trimmed = "projects".toList then some trimmed
        else some (joinPath trimmed "projects".toList))
  | none =>
    [ joinPath (joinPath (joinPath home ".config".toList) "claude".toList) "projects".toList
    , joinPath (joinPath home ".claude".toList) "projects".toList ]

/-- `CodexLogScanner.getSessionRoots` (lines 134-146) as a function of the
`CODEX_HOME` environment value, the home directory, and whether the
`archived_sessions` sibling directory exists: the whole (trimmed) value is
used as a single root, with `sessions` always appended. -/
def getSessionRoots (codexHomeEnv : Option JStr) (home : JStr)
    (archivedExists : Bool) : List JStr :=
  let envHome := codexHomeEnv.map jsTrim
  let codexHome :=
    match envHome with
    | some v => if v = [] then joinPath home ".codex".toList else v
    | none => joinPath home ".codex".toList
  let sessionsDir := joinPath codexHome "sessions".toList
  let archivedDir := joinPath codexHome "archived_sessions".toList
  if archivedExists then [sessionsDir, archivedDir] else [sessionsDir]

-- ============================================================================
-- Helper lemmas
-- ============================================================================

/-- `ratFloor` agrees with Mathlib's floor. -/
theorem ratFloor_eq_floor (q : ℚ) : ratFloor q = ⌊q⌋ := by
  rw [Rat.floor_def, ratFloor]
  exact Int.fdiv_eq_ediv _ (Int.ofNat_nonneg _)

/-- `Math.round` of an integer is that integer. -/
theorem jsRound_intCast (n : ℤ) : jsRound (n : ℚ) = n := by
  rw [jsRound, ratFloor_eq_floor]
  have h : ((n:ℚ) + 1/2) = (1/2 : ℚ) + n := by ring
  rw [h, Int.floor_add_int]
  norm_num

/-- Rounding to six decimal places is the identity on amounts that are an
integer number of micro-dollars. -/
theorem roundTo6_of_eq_intCast (q : ℚ) (n : ℤ) (h : q * 1000000 = (n : ℚ)) :
    roundTo6 q = q := by
  rw [roundTo6, h, jsRound_intCast]
  field_simp
  linarith [h]

-- ============================================================================
-- C4 — tiered pricing, concrete case
-- ============================================================================

/-- C4: for `claude-sonnet-4-5` (base $3/$15 per million, $6/$22.5 above a
200,000-token threshold evaluated per category), `calculateCost` prices
1,000,000 input tokens alone at 5.4 USD (200k at 3 plus 800k at 6, per
million), 1,000,000 output tokens alone at 21.0 USD (200k at 15 plus 800k
at 22.5), and 1,000,000 input plus 1,000,000 output tokens (no cache
tokens) at exactly 26.4 USD. -/
theorem calculateCost_tiered_concrete :
    calculateCost "claude-sonnet-4-5".toList 1000000 0 0 0 = 5.4 ∧
    calculateCost "claude-sonnet-4-5".toList 0 1000000 0 0 = 21 ∧
    calculateCost "claude-sonnet-4-5".toList 1000000 1000000 0 0 = 26.4 := by
  have hp : pricingFor "claude-sonnet-4-5".toList = some
      { input := 3.0, output := 15.0, cacheRead := some 0.3, cacheCreation := some 3.75
        aboveThreshold := some
          { thresholdTokens := 200000, input := 6.0, output := 22.5
            cacheRead := some 0.6, cacheCreation := some 7.5 } } := rfl
  refine ⟨?_, ?_, ?_⟩
  · rw [calculateCost, hp]
    have hr : ∀ q : ℚ, q = 5.4 → roundTo6 q = 5.4 := by
      rintro q rfl
      exact roundTo6_of_eq_intCast 5.4 5400000 (by norm_num)
    apply hr
    norm_num [tieredCost]
  · rw [calculateCost, hp]
    have hr : ∀ q : ℚ, q = 21 → roundTo6 q = 21 := by
      rintro q rfl
      exact roundTo6_of_eq_intCast 21 21000000 (by norm_num)
    apply hr
    norm_num [tieredCost]
  · rw [calculateCost, hp]
    have hr : ∀ q : ℚ, q = 26.4 → roundTo6 q = 26.4 := by
      rintro q rfl
      exact roundTo6_of_eq_intCast 26.4 26400000 (by norm_num)
    apply hr
    norm_num [tieredCost]

/-- The behaviour of `CodexLogScanner.processLine` on a counter line whose
payload carries a cumulative `total_token_usage` structure. -/
theorem codex_total_branch (dk : JStr → Option JStr) (line : CodexLogLine)
    (m : Option JStr) (prev : Option CumulativeTotals) (ts d : JStr)
    (payload : CodexPayload) (info : CodexInfo) (total : CodexTokenUsage)
    (h1 : line.type = some "event_msg".toList)
    (h2 : line.timestamp = some ts) (h3 : ts ≠ [])
    (h4 : dk ts = some d) (h5 : d ≠ [])
    (h6 : line.payload = some payload)
    (h7 : payload.type = some "token_count".toList)
    (h8 : payload.info = some info)
    (h9 : info.total_token_usage = some total) :
    CodexLogScanner.processLine dk line m prev =
      (let cur : CumulativeTotals :=
        { input := toInt total.input_tokens
          cached := toInt (jsCoalesce total.cached_input_tokens total.cache_read_input_tokens)
          output := toInt total.output_tokens }
       let dI := max 0 (cur.input - (prev.map (·.input)).getD 0)
       let dC := max 0 (cur.cached - (prev.map (·.cached)).getD 0)
       let dO := max 0 (cur.output - (prev.map (·.output)).getD 0)
       ((if dI = 0 ∧ dC = 0 ∧ dO = 0 then [] else
          [{ dayKey := d
             model := normalizeCodexModel (CodexLogScanner.resolveModel line payload (some info) m)
             inputTokens := dI
             cachedInputTokens := min dC dI
             outputTokens := dO
             timestamp := ts }]), m, some cur)) := by
  simp only [CodexLogScanner.processLine, h1, h2, h4, h6, h7, h8, h9,
    CodexLogScanner.computeTotalDeltas]
  rw [if_neg (by decide)]
  rw [if_neg (by simp)]
  simp only [if_neg h3, if_neg h5]
  rw [if_neg (by simp)]
  simp only [Option.some_bind, h9]
  split <;> rfl

-- ============================================================================
-- Concrete scan fixtures (mirroring the repository's test helpers)
-- ============================================================================

/-- A sample day-key function for concrete scan evaluations (echoes the
timestamp; any function would do since `dayKeyFromISO` is a parameter). -/
def dayKeySample : JStr → Option JStr := fun ts => some ts

/-- A Codex `event_msg` line with a cumulative `total_token_usage` payload
(the shape built by the repository's `makeTokenCountEvent` test helper). -/
def codexTotalLine (ts : String) (inp cach outp : ℚ) : CodexLogLine :=
  { type := some "event_msg".toList
    timestamp := some ts.toList
    payload := some
      { type := some "token_count".toList
        info := some
          { total_token_usage := some
              { input_tokens := some (.num inp)
                cached_input_tokens := some (.num cach)
                output_tokens := some (.num outp) } } } }

-- ============================================================================
-- C3 — cumulative-delta computation of the counter-oriented scanner
-- ============================================================================

/-- C3 counterexample: a counter line reporting cumulative totals of 100
input / 200 cached / 50 output tokens (no previous totals) emits an event
whose cached-token delta is 100, not `max(0, 200 - 0) = 200`: the cached
delta is additionally clamped to the input delta, so the claim that every
emitted delta equals `max(0, currentTotal - previousTotal)` fails. -/
theorem codex_delta_claim_counterexample :
    ((CodexLogScanner.parseFile dayKeySample [codexTotalLine "t1" 100 200 50]
        none none).1).map (fun e => e.cachedInputTokens) = [100] ∧
    ¬ ((100 : ℤ) = max 0 (200 - 0)) := by decide

/-- C3 (amended): on every counter line carrying cumulative totals, the
carried previous-total state advances to the current totals, the emitted
input and output deltas equal `max(0, currentTotal - previousTotal)`
computed independently per category, the emitted cached delta equals that
same quantity further clamped to not exceed the input delta, and all
emitted deltas are non-negative; successive totals 100/0/50, 300/50/150,
500/100/250 yield per-event deltas 100/0/50, then 200/50/100, then
200/50/100. -/
theorem codex_cumulative_delta_correct :
    (∀ (dk : JStr → Option JStr) (line : CodexLogLine) (m : Option JStr)
        (prev : Option CumulativeTotals) (ts d : JStr) (payload : CodexPayload)
        (info : CodexInfo) (total : CodexTokenUsage),
      line.type = some "event_msg".toList →
      line.timestamp = some ts → ts ≠ [] →
      dk ts = some d → d ≠ [] →
      line.payload = some payload →
      payload.type = some "token_count".toList →
      payload.info = some info →
      info.total_token_usage = some total →
      ((CodexLogScanner.processLine dk line m prev).2.2 =
        some { input := toInt total.input_tokens
               cached := toInt (jsCoalesce total.cached_input_tokens total.cache_read_input_tokens)
               output := toInt total.output_tokens } ∧
       ∀ e ∈ (CodexLogScanner.processLine dk line m prev).1,
         e.inputTokens = max 0 (toInt total.input_tokens - (prev.map (·.input)).getD 0) ∧
         e.cachedInputTokens =
           min (max 0 (toInt (jsCoalesce total.cached_input_tokens total.cache_read_input_tokens)
             - (prev.map (·.cached)).getD 0)) e.inputTokens ∧
         e.outputTokens = max 0 (toInt total.output_tokens - (prev.map (·.output)).getD 0) ∧
         0 ≤ e.inputTokens ∧ 0 ≤ e.cachedInputTokens ∧ 0 ≤ e.outputTokens)) ∧
    ((CodexLogScanner.parseFile dayKeySample
        [codexTotalLine "t1" 100 0 50, codexTotalLine "t2" 300 50 150,
         codexTotalLine "t3" 500 100 250] none none).1).map
      (fun e => (e.inputTokens, e.cachedInputTokens, e.outputTokens))
      = [(100, 0, 50), (200, 50, 100), (200, 50, 100)] := by
  constructor
  · intro dk line m prev ts d payload info total h1 h2 h3 h4 h5 h6 h7 h8 h9
    rw [codex_total_branch dk line m prev ts d payload info total h1 h2 h3 h4 h5 h6 h7 h8 h9]
    refine ⟨rfl, ?_⟩
    intro e he
    simp only at he
    split at he
    · exact absurd he (List.not_mem_nil _)
    · rw [List.mem_singleton] at he
      subst he
      refine ⟨rfl, rfl, rfl, le_max_left _ _, le_min (le_max_left _ _) (le_max_left _ _), le_max_left _ _⟩
  · decide

/-- C3 witness: the amended theorem applied at a concrete counter line
(totals 100/0/50, no previous totals) advances the carried state to
100/0/50. -/
theorem codex_cumulative_delta_correct_witness :
    (CodexLogScanner.processLine dayKeySample (codexTotalLine "t1" 100 0 50)
        none none).2.2 = some { input := 100, cached := 0, output := 50 } := by
  have h := (codex_cumulative_delta_correct.1 dayKeySample
    (codexTotalLine "t1" 100 0 50) none none "t1".toList "t1".toList _ _ _
    rfl rfl (by decide) rfl (by decide) rfl rfl rfl rfl).1
  exact h.trans (by decide)

/-- Every entry emitted by one step of the Codex scanner has its cached
tokens clamped to the input tokens (the `Math.min` at codexLogScanner.ts
line 378). -/
theorem codex_processLine_cached_le (dk : JStr → Option JStr) (line : CodexLogLine)
    (m : Option JStr) (prev : Option CumulativeTotals) :
    ∀ e ∈ (CodexLogScanner.processLine dk line m prev).1,
      e.cachedInputTokens ≤ e.inputTokens := by
  intro e he
  unfold CodexLogScanner.processLine at he
  repeat' (first
    | exact absurd he (List.not_mem_nil _)
    | (rw [List.mem_singleton] at he; subst he; exact min_le_right _ _)
    | split at he
    | simp only [List.mem_singleton] at he)

/-- The cached-token clamp holds across a whole Codex parse pass. -/
theorem codex_parseFile_cached_le (dk : JStr → Option JStr) :
    ∀ (lines : List CodexLogLine) (m0 : Option JStr) (t0 : Option CumulativeTotals),
      ∀ e ∈ (CodexLogScanner.parseFile dk lines m0 t0).1,
        e.cachedInputTokens ≤ e.inputTokens := by
  intro lines
  induction lines with
  | nil => intro m0 t0 e he; exact absurd he (List.not_mem_nil _)
  | cons line rest ih =>
    intro m0 t0 e he
    rw [CodexLogScanner.parseFile] at he
    simp only [List.mem_append] at he
    rcases he with h | h
    · exact codex_processLine_cached_le dk line m0 t0 e h
    · exact ih _ _ e h

/-- A Claude assistant line with a usage block (the shape built by the
repository's `makeAssistantLine` test helper); empty `mid`/`rid` mean the
corresponding id field is absent. -/
def claudeAssistantLine (ts mid rid model : String) (inp outp cr cc : ℚ) : ClaudeLogLine :=
  { type := some "assistant".toList
    timestamp := some ts.toList
    message := some
      { id := if mid = "" then none else some mid.toList
        model := some model.toList
        usage := some
          { input_tokens := some (.num inp)
            output_tokens := some (.num outp)
            cache_read_input_tokens := some (.num cr)
            cache_creation_input_tokens := some (.num cc) } }
    requestId := if rid = "" then none else some rid.toList }

-- ============================================================================
-- C6 — cache-token clamping
-- ============================================================================

/-- C6 counterexample: the message-oriented scanner performs no
cache-to-input clamping — a Claude line reporting 100 input / 200
cache-read tokens is stored with cache-read 200, which exceeds the input
count, refuting the claim for "either scanner". -/
theorem cache_clamp_claim_counterexample :
    ((ClaudeLogScanner.parseFile dayKeySample
        [claudeAssistantLine "t1" "" "" "m" 100 10 200 0]).map
      (fun e => (e.inputTokens, e.cacheReadInputTokens)) = [(100, 200)]) ∧
    ¬ ((200 : ℤ) ≤ 100) := by decide

/-- C6 (amended): the cached-token clamp holds for the counter-oriented
scanner only: every event it emits has cached tokens at most the input
tokens of the same event, and a counter event reporting 100 input / 200
cached tokens stores a cached value of 100.  The message-oriented scanner
stores cache token counts unclamped (see the counterexample). -/
theorem cache_clamp_amended :
    (∀ (dk : JStr → Option JStr) (lines : List CodexLogLine) (m0 : Option JStr)
        (t0 : Option CumulativeTotals),
      ∀ e ∈ (CodexLogScanner.parseFile dk lines m0 t0).1,
        e.cachedInputTokens ≤ e.inputTokens) ∧
    ((CodexLogScanner.parseFile dayKeySample [codexTotalLine "t1" 100 200 50]
        none none).1).map (fun e => (e.inputTokens, e.cachedInputTokens))
      = [(100, 100)] := by
  constructor
  · intro dk
    exact codex_parseFile_cached_le dk
  · decide

/-- C6 witness: the amended theorem applied to the concrete counter line
100 input / 200 cached: the emitted entry (cached 100) satisfies the
clamp. -/
theorem cache_clamp_amended_witness :
    ({ dayKey := "t1".toList, model := "gpt-5".toList, inputTokens := 100
       cachedInputTokens := 100, outputTokens := 50, timestamp := "t1".toList } :
        CodexUsageEntry).cachedInputTokens ≤
      ({ dayKey := "t1".toList, model := "gpt-5".toList, inputTokens := 100
         cachedInputTokens := 100, outputTokens := 50, timestamp := "t1".toList } :
        CodexUsageEntry).inputTokens :=
  cache_clamp_amended.1 dayKeySample [codexTotalLine "t1" 100 200 50] none none _ (by decide)

/-- Every entry emitted for a line with a payload carries the model computed
by `resolveModel` from that payload, normalized. -/
theorem codex_model_resolution_general (dk : JStr → Option JStr) (line : CodexLogLine)
    (m : Option JStr) (prev : Option CumulativeTotals) (payload : CodexPayload)
    (h6 : line.payload = some payload) :
    ∀ e ∈ (CodexLogScanner.processLine dk line m prev).1,
      e.model = normalizeCodexModel
        (CodexLogScanner.resolveModel line payload payload.info m) := by
  intro e he
  unfold CodexLogScanner.processLine at he
  repeat' (first
    | exact absurd he (List.not_mem_nil _)
    | (rw [List.mem_singleton] at he; subst he; simp_all)
    | split at he
    | simp only [List.mem_singleton] at he)

/-- A Codex `event_msg` counter line with configurable model fields at the
top level, in the payload, and in the info sub-structure. -/
def codexModelLine (ts : String) (lineModel payloadModel infoModel infoModelName : Option String)
    (inp cach outp : ℚ) : CodexLogLine :=
  { type := some "event_msg".toList
    timestamp := some ts.toList
    model := lineModel.map (·.toList)
    payload := some
      { type := some "token_count".toList
        model := payloadModel.map (·.toList)
        info := some
          { model := infoModel.map (·.toList)
            model_name := infoModelName.map (·.toList)
            total_token_usage := some
              { input_tokens := some (.num inp)
                cached_input_tokens := some (.num cach)
                output_tokens := some (.num outp) } } } }

/-- A Codex `turn_context` line (the shape built by the repository's
`makeTurnContext` test helper). -/
def codexTurnContextLine (model : String) : CodexLogLine :=
  { type := some "turn_context".toList
    timestamp := some "t0".toList
    payload := some { model := some model.toList } }

-- ============================================================================
-- C7 — model resolution precedence of the counter-oriented scanner
-- ============================================================================

/-- C7 counterexample: a counter line carrying an explicit model field both
at the top level and in the payload (`modelA`) as well as an info-level
model (`modelB`) emits `modelB`: the info sub-structure's model takes
precedence over the line's explicit model field, contradicting the claimed
order. -/
theorem codex_model_precedence_counterexample :
    ((CodexLogScanner.parseFile dayKeySample
        [codexModelLine "t1" (some "modelA") (some "modelA") (some "modelB") none
          100 0 50] none none).1).map (·.model) = ["modelB".toList] ∧
    "modelB".toList ≠ "modelA".toList := by decide

/-- C7 (amended): for every counter line the emitted model is
`normalizeCodexModel` of the chain `info.model ?? info.model_name ??
payload.model ?? line.model ?? currentModel ?? "gpt-5"` — the info
sub-structure's model (then its model_name) takes precedence, then the
line's explicit model fields, then the most recent context-line model,
then the fixed default. The concrete cases exercise each level: info-model
over explicit fields, info model_name next, payload model next, the
carried context model next, and the `gpt-5` default last. -/
theorem codex_model_resolution_precedence :
    (∀ (dk : JStr → Option JStr) (line : CodexLogLine) (m : Option JStr)
        (prev : Option CumulativeTotals) (payload : CodexPayload),
      line.payload = some payload →
      ∀ e ∈ (CodexLogScanner.processLine dk line m prev).1,
        e.model = normalizeCodexModel
          ((((((payload.info.bind (·.model)).or
            (payload.info.bind (·.model_name))).or payload.model).or line.model).or m).getD
              "gpt-5".toList)) ∧
    ((CodexLogScanner.parseFile dayKeySample
        [codexModelLine "t1" (some "modelA") (some "modelA") (some "modelB") (some "modelC")
          100 0 50] none none).1).map (·.model) = ["modelB".toList] ∧
    ((CodexLogScanner.parseFile dayKeySample
        [codexModelLine "t1" (some "modelA") (some "modelA") none (some "modelC")
          100 0 50] none none).1).map (·.model) = ["modelC".toList] ∧
    ((CodexLogScanner.parseFile dayKeySample
        [codexModelLine "t1" (some "modelA") (some "modelD") none none
          100 0 50] none none).1).map (·.model) = ["modelD".toList] ∧
    ((CodexLogScanner.parseFile dayKeySample
        [codexTurnContextLine "modelE", codexModelLine "t1" none none none none
          100 0 50] none none).1).map (·.model) = ["modelE".toList] ∧
    ((CodexLogScanner.parseFile dayKeySample
        [codexModelLine "t1" none none none none 100 0 50] none none).1).map (·.model)
      = ["gpt-5".toList] := by
  refine ⟨?_, by decide, by decide, by decide, by decide, by decide⟩
  intro dk line m prev payload h6 e he
  have h := codex_model_resolution_general dk line m prev payload h6 e he
  rw [h]
  rfl

/-- The counter line used to witness the model-resolution theorem. -/
def c7Line : CodexLogLine :=
  codexModelLine "t1" (some "modelA") (some "modelA") (some "modelB") none 100 0 50

/-- The payload of `c7Line`. -/
def c7Payload : CodexPayload :=
  { type := some "token_count".toList
    model := some "modelA".toList
    info := some
      { model := some "modelB".toList
        model_name := none
        total_token_usage := some
          { input_tokens := some (.num 100)
            cached_input_tokens := some (.num 0)
            output_tokens := some (.num 50) } } }

/-- C7 witness: the amended theorem applied to `c7Line` — the emitted
entry's model equals the normalized resolution chain, which picks the info
sub-structure's `modelB` over the line's explicit `modelA`. -/
theorem codex_model_resolution_precedence_witness :
    ({ dayKey := "t1".toList, model := "modelB".toList, inputTokens := 100
       cachedInputTokens := 0, outputTokens := 50, timestamp := "t1".toList } :
        CodexUsageEntry).model =
      normalizeCodexModel
        ((((((c7Payload.info.bind (·.model)).or (c7Payload.info.bind (·.model_name))).or
          c7Payload.model).or c7Line.model).or none).getD "gpt-5".toList) :=
  codex_model_resolution_precedence.1 dayKeySample c7Line none none c7Payload rfl _ (by decide)

/-- Appending one row adds one to the count of its own key and nothing to
any other key. -/
theorem countKey_append_single (db : List AiRequestRow) (row : AiRequestRow)
    (k : Int × AiProvider × JStr × JStr × Int × Int) :
    countKey (db ++ [row]) k = countKey db k + (if rowKey row = k then 1 else 0) := by
  simp only [countKey, List.filter_append, List.length_append]
  congr 1
  simp only [List.filter]
  split_ifs with h <;> simp_all

/-- A key matched by no stored row has count zero. -/
theorem countKey_eq_zero_of_not_any (db : List AiRequestRow)
    (k : Int × AiProvider × JStr × JStr × Int × Int)
    (h : db.any (fun r => rowKey r = k) = false) : countKey db k = 0 := by
  simp only [countKey, List.length_eq_zero, List.filter_eq_nil_iff]
  simp only [List.any_eq_false, decide_eq_true_eq] at h
  intro a ha
  simp only [decide_eq_true_eq]
  exact h a ha

/-- A stored row with key `k` forces a positive count for `k`. -/
theorem one_le_countKey (db : List AiRequestRow)
    (k : Int × AiProvider × JStr × JStr × Int × Int) (r : AiRequestRow)
    (hr : r ∈ db) (hk : rowKey r = k) : 1 ≤ countKey db k := by
  have hmem : r ∈ db.filter (fun r => rowKey r = k) :=
    List.mem_filter.mpr ⟨hr, by simp [hk]⟩
  have hne := List.ne_nil_of_mem hmem
  unfold countKey
  exact Nat.one_le_iff_ne_zero.mpr (fun h0 => hne (List.length_eq_zero.mp h0))

/-- The stored dedup tuple of an inserted row is the entry's normalized
tuple. -/
theorem rowKey_logRow (entry : AiRequestLogEntry) (c : Option ℚ) :
    rowKey (logRow entry c) = entryKey entry := rfl

-- ============================================================================
-- C5 — insert idempotence and the uniqueness invariant
-- ============================================================================

/-- C5: on a ledger satisfying the uniqueness invariant, `logRequest`
preserves it, inserting a tuple already present is a no-op raising no
error, and inserting the identical tuple twice leaves exactly one stored
record for it. -/
theorem ledger_insert_idempotent :
    ∀ (db : List AiRequestRow) (entry : AiRequestLogEntry) (c c' : Option ℚ),
      atMostOnePerKey db →
      (atMostOnePerKey (logRequest db entry c) ∧
       logRequest (logRequest db entry c) entry c' = logRequest db entry c ∧
       countKey (logRequest (logRequest db entry c) entry c') (entryKey entry) = 1) := by
  intro db entry c c' hmo
  by_cases h : db.any (fun r => rowKey r = entryKey entry) = true
  · have h1 : logRequest db entry c = db := by unfold logRequest; rw [if_pos h]
    have h2 : logRequest db entry c' = db := by unfold logRequest; rw [if_pos h]
    obtain ⟨r, hr, hk⟩ := List.any_eq_true.mp h
    simp only [decide_eq_true_eq] at hk
    refine ⟨by rw [h1]; exact hmo, by rw [h1, h2], ?_⟩
    rw [h1, h2]
    exact Nat.le_antisymm (hmo _) (one_le_countKey db _ r hr hk)
  · have hf : db.any (fun r => rowKey r = entryKey entry) = false := by
      simpa using h
    have h1 : logRequest db entry c = db ++ [logRow entry c] := by
      unfold logRequest; rw [if_neg h]
    have hz : countKey db (entryKey entry) = 0 := countKey_eq_zero_of_not_any db _ hf
    have hpresent : (db ++ [logRow entry c]).any
        (fun r => rowKey r = entryKey entry) = true := by
      simp [List.any_append, rowKey_logRow]
    have h2 : logRequest (db ++ [logRow entry c]) entry c' = db ++ [logRow entry c] := by
      unfold logRequest; rw [if_pos hpresent]
    refine ⟨?_, by rw [h1, h2], ?_⟩
    · intro k
      rw [h1, countKey_append_single]
      by_cases hk : rowKey (logRow entry c) = k
      · rw [if_pos hk]
        rw [rowKey_logRow] at hk
        rw [← hk, hz]
      · rw [if_neg hk]
        simpa using hmo k
    · rw [h1, h2, countKey_append_single, hz, if_pos (rowKey_logRow entry c)]

/-- A sample ledger entry for concrete instantiations. -/
def sampleEntry : AiRequestLogEntry :=
  { timestamp := 1700000000000
    provider := .anthropic
    model := "claude-sonnet-4-5".toList
    inputTokens := 100
    outputTokens := 50
    source := "api".toList }

/-- C5 witness: inserting `sampleEntry` twice into an empty ledger stores
exactly one record for its tuple. -/
theorem ledger_insert_idempotent_witness :
    countKey (logRequest (logRequest [] sampleEntry none) sampleEntry (some 2))
      (entryKey sampleEntry) = 1 :=
  (ledger_insert_idempotent [] sampleEntry none (some 2)
    (by intro k; simp [countKey])).2.2

-- ============================================================================
-- C10 — duplicate insert leaves the ledger entirely unchanged
-- ============================================================================

/-- C10: a `logRequest` call whose normalized dedup tuple matches an
earlier insert leaves the ledger state entirely unchanged — the later
call's cache token counts, session id, and cost (pre-calculated or
computed) are discarded and the first-stored record's values persist, even
when those fields differ. -/
theorem ledger_duplicate_insert_frame :
    ∀ (db : List AiRequestRow) (e1 e2 : AiRequestLogEntry) (c1 c2 : Option ℚ),
      entryKey e1 = entryKey e2 →
      logRequest (logRequest db e1 c1) e2 c2 = logRequest db e1 c1 := by
  intro db e1 e2 c1 c2 hk
  by_cases h : db.any (fun r => rowKey r = entryKey e1) = true
  · have h1 : logRequest db e1 c1 = db := by unfold logRequest; rw [if_pos h]
    rw [h1]
    unfold logRequest
    rw [if_pos (hk ▸ h)]
  · have h1 : logRequest db e1 c1 = db ++ [logRow e1 c1] := by
      unfold logRequest; rw [if_neg h]
    rw [h1]
    unfold logRequest
    rw [if_pos (by simp [List.any_append, rowKey_logRow, ← hk])]

/-- First insert of the C10 witness: carries cache counts and a session id. -/
def c10Entry1 : AiRequestLogEntry :=
  { timestamp := 1700000000000
    provider := .openai
    model := "gpt-5".toList
    inputTokens := 10
    outputTokens := 5
    cacheReadInputTokens := some 3
    source := "api".toList
    sessionId := some "s1".toList }

/-- Second insert of the C10 witness: same dedup tuple, different cache
counts and session id. -/
def c10Entry2 : AiRequestLogEntry :=
  { timestamp := 1700000000000
    provider := .openai
    model := "gpt-5".toList
    inputTokens := 10
    outputTokens := 5
    cacheReadInputTokens := some 999
    cacheCreationInputTokens := some 7
    source := "api".toList
    sessionId := some "other".toList }

/-- C10 witness: re-inserting the same tuple with different cache counts,
session id, and a pre-calculated cost is a complete no-op. -/
theorem ledger_duplicate_insert_frame_witness :
    logRequest (logRequest [] c10Entry1 none) c10Entry2 (some 42) =
      logRequest [] c10Entry1 none :=
  ledger_duplicate_insert_frame [] c10Entry1 c10Entry2 none (some 42) (by decide)

-- ============================================================================
-- C2 — message-oriented dedup keeps the last occurrence (code bug)
-- ============================================================================

/-- C2 evaluation at the failing input: three assistant lines sharing one
(message-id, request-id) pair with output counts 10, 50, 100 yield exactly
one event, but its counts are the LAST line's (100), because
`entryByKey.set` overwrites the stored value.  The scanner's own doc
comment (claudeLogScanner.ts lines 258-261) and the repository test
"should deduplicate streaming chunks" assert the FIRST occurrence's
counts (10), so the code contradicts its own documentation and test. -/
theorem claude_dedup_keeps_last :
    ((ClaudeLogScanner.parseFile dayKeySample
        [claudeAssistantLine "t1" "msg1" "req1" "m" 100 10 0 0,
         claudeAssistantLine "t2" "msg1" "req1" "m" 100 50 0 0,
         claudeAssistantLine "t3" "msg1" "req1" "m" 100 100 0 0]).map
      (fun e => e.outputTokens) = [100]) ∧
    ¬ (((ClaudeLogScanner.parseFile dayKeySample
        [claudeAssistantLine "t1" "msg1" "req1" "m" 100 10 0 0,
         claudeAssistantLine "t2" "msg1" "req1" "m" 100 50 0 0,
         claudeAssistantLine "t3" "msg1" "req1" "m" 100 100 0 0]).map
      (fun e => e.outputTokens)) = [10]) := by decide

-- ============================================================================
-- C8 — environment-override root discovery
-- ============================================================================

/-- C8 counterexample: the counter-oriented scanner does not apply the
comma-split / last-segment rule to its override variable: a `CODEX_HOME`
value whose last segment is already `sessions` still gets `sessions`
appended, and a comma-separated value is treated as one single path. -/
theorem env_roots_claim_counterexample :
    getSessionRoots (some "/x/sessions".toList) "/home/u".toList false
      = ["/x/sessions/sessions".toList] ∧
    "/x/sessions/sessions".toList ≠ "/x/sessions".toList ∧
    getSessionRoots (some "/a,/b".toList) "/home/u".toList false
      = ["/a,/b/sessions".toList] := by decide

/-- C8 (amended): only the message-oriented log family's override
(`CLAUDE_CONFIG_DIR`) is split on commas, each trimmed non-empty entry
used as-is when its last path segment is already `projects` and with
`projects` appended otherwise.  The counter-oriented family's override
(`CODEX_HOME`) is taken as one single root directory: `sessions` is always
appended (plus `archived_sessions` when that sibling directory exists),
with no comma splitting and no last-segment check. -/
theorem env_root_discovery_amended :
    (∀ (env home part : JStr), part ∈ splitOnChar ',' (jsTrim env) →
      jsTrim part ≠ [] →
      ((jsBasename (jsTrim part) = "projects".toList →
          jsTrim part ∈ getProjectRoots (some env) home) ∧
       (jsBasename (jsTrim part) ≠ "projects".toList →
          joinPath (jsTrim part) "projects".toList ∈ getProjectRoots (some env) home))) ∧
    (∀ (ch home : JStr) (archivedExists : Bool), jsTrim ch ≠ [] →
      getSessionRoots (some ch) home archivedExists =
        joinPath (jsTrim ch) "sessions".toList ::
          (if archivedExists then [joinPath (jsTrim ch) "archived_sessions".toList] else [])) := by
  constructor
  · intro env home part hmem hne
    have hv : jsTrim env ≠ [] := by
      intro h0
      rw [h0] at hmem
      simp [splitOnChar] at hmem
      exact hne (by rw [hmem]; rfl)
    constructor
    · intro hb
      unfold getProjectRoots
      simp only [Option.map_some']
      rw [if_neg hv]
      exact List.mem_filterMap.mpr ⟨part, hmem, by rw [if_neg hne, if_pos hb]⟩
    · intro hb
      unfold getProjectRoots
      simp only [Option.map_some']
      rw [if_neg hv]
      exact List.mem_filterMap.mpr ⟨part, hmem, by rw [if_neg hne, if_neg hb]⟩
  · intro ch home archivedExists hne
    unfold getSessionRoots
    simp only [Option.map_some']
    rw [if_neg hne]
    cases archivedExists <;> simp

/-- C8 witness: a root without the expected last segment gets `projects`
appended for the Claude family, and a single-path `CODEX_HOME` gets
`sessions` appended. -/
theorem env_root_discovery_amended_witness :
    (joinPath (jsTrim "/opt/claude".toList) "projects".toList ∈
      getProjectRoots (some "/opt/claude".toList) "/home/u".toList) ∧
    getSessionRoots (some "/opt/codex".toList) "/home/u".toList false =
      [joinPath (jsTrim "/opt/codex".toList) "sessions".toList] := by
  constructor
  · exact (env_root_discovery_amended.1 "/opt/claude".toList "/home/u".toList
      "/opt/claude".toList (by decide) (by decide)).2 (by decide)
  · simpa using env_root_discovery_amended.2 "/opt/codex".toList "/home/u".toList
      false (by decide)

/-- The `-codex` allow-list stripping stage stabilizes after one
application: its output is either unchanged input or a known base, and
known bases contain no `-codex` marker. -/
theorem stripCodexMarker_idem (s : JStr) :
    stripCodexMarker (stripCodexMarker s) = stripCodexMarker s := by
  have hc : stripCodexMarker s = s ∨ stripCodexMarker s ∈ KNOWN_CODEX_BASES := by
    unfold stripCodexMarker
    rcases indexOfSub s "-codex".toList with _ | i
    · exact .inl rfl
    · simp only
      split_ifs with hb
      · exact .inr hb
      · exact .inl rfl
  rcases hc with h | h
  · rw [h]
    exact h
  · simp only [KNOWN_CODEX_BASES, List.mem_cons, List.mem_singleton,
      List.not_mem_nil, or_false] at h
    rcases h with h | h | h <;> rw [h] <;> decide

/-- The date-marker allow-list stripping stage stabilizes after one
application: its output is either unchanged input or a known base, and no
known base strips further (the two dated bases' underlying names are not
themselves in the allow-list). -/
theorem stripDateMarker_idem (s : JStr) :
    stripDateMarker (stripDateMarker s) = stripDateMarker s := by
  have hc : stripDateMarker s = s ∨ stripDateMarker s ∈ KNOWN_CLAUDE_BASES := by
    simp only [stripDateMarker]
    split_ifs with h1 h2
    · exact .inr h2
    · exact .inl rfl
    · exact .inl rfl
  rcases hc with h | h
  · rw [h]
    exact h
  · simp only [KNOWN_CLAUDE_BASES, List.mem_cons, List.mem_singleton,
      List.not_mem_nil, or_false] at h
    rcases h with h | h | h | h | h | h | h <;> rw [h] <;> decide

-- ============================================================================
-- C9 — normalizer idempotence
-- ============================================================================

/-- C9 counterexample: neither normalizer is idempotent on every string.
A doubled vendor marker is stripped once per application
(`openai/openai/gpt-5` normalizes to `openai/gpt-5`, which normalizes
further to `gpt-5`), and `replace('@','-')` rewrites only the first `@`
per application. -/
theorem normalizer_idempotence_counterexample :
    normalizeCodexModel (normalizeCodexModel "openai/openai/gpt-5".toList) ≠
      normalizeCodexModel "openai/openai/gpt-5".toList ∧
    normalizeClaudeModel (normalizeClaudeModel "claude-x@1@2".toList) ≠
      normalizeClaudeModel "claude-x@1@2".toList := by decide

/-- C9 (amended): each normalizer is idempotent at every input whose
normalized form is itself stable under the stripping stages — already
trimmed, not carrying another vendor marker, and (for the Claude family)
unchanged by the nested-path extraction, the `-vN:M` strip, and the
`@`-rewrite.  The final allow-list stages need no such hypothesis: they
always stabilize after one application.  Unrestricted idempotence fails
(see the counterexample). -/
theorem normalizer_idempotent_amended :
    (∀ x : JStr, jsTrim (normalizeCodexModel x) = normalizeCodexModel x →
      "openai/".toList.isPrefixOf (normalizeCodexModel x) = false →
      normalizeCodexModel (normalizeCodexModel x) = normalizeCodexModel x) ∧
    (∀ x : JStr, jsTrim (normalizeClaudeModel x) = normalizeClaudeModel x →
      "anthropic.".toList.isPrefixOf (normalizeClaudeModel x) = false →
      extractClaudeTail (normalizeClaudeModel x) = normalizeClaudeModel x →
      stripVersionMarker (normalizeClaudeModel x) = normalizeClaudeModel x →
      replaceFirstAt (normalizeClaudeModel x) = normalizeClaudeModel x →
      normalizeClaudeModel (normalizeClaudeModel x) = normalizeClaudeModel x) := by
  constructor
  · intro x h1 h2
    show stripCodexMarker (stripVendorOpenai (jsTrim (normalizeCodexModel x)))
      = normalizeCodexModel x
    rw [h1]
    rw [stripVendorOpenai, if_neg (by rw [h2]; decide)]
    show stripCodexMarker (stripCodexMarker (stripVendorOpenai (jsTrim x)))
      = stripCodexMarker (stripVendorOpenai (jsTrim x))
    exact stripCodexMarker_idem _
  · intro x h1 h2 h3 h4 h5
    show stripDateMarker (replaceFirstAt (stripVersionMarker (extractClaudeTail
      (stripVendorAnthropic (jsTrim (normalizeClaudeModel x)))))) = normalizeClaudeModel x
    rw [h1]
    rw [stripVendorAnthropic, if_neg (by rw [h2]; decide)]
    rw [h3, h4, h5]
    show stripDateMarker (stripDateMarker (replaceFirstAt (stripVersionMarker
      (extractClaudeTail (stripVendorAnthropic (jsTrim x))))))
      = stripDateMarker (replaceFirstAt (stripVersionMarker
        (extractClaudeTail (stripVendorAnthropic (jsTrim x)))))
    exact stripDateMarker_idem _

/-- C9 witness: the amended idempotence applied at concrete inputs for
both families (`openai/gpt-5-codex` and a dated Vertex-style Claude id). -/
theorem normalizer_idempotent_amended_witness :
    normalizeCodexModel (normalizeCodexModel "openai/gpt-5-codex".toList) =
      normalizeCodexModel "openai/gpt-5-codex".toList ∧
    normalizeClaudeModel
        (normalizeClaudeModel "anthropic.claude-opus-4-5@20251101".toList) =
      normalizeClaudeModel "anthropic.claude-opus-4-5@20251101".toList :=
  ⟨normalizer_idempotent_amended.1 "openai/gpt-5-codex".toList (by decide) (by decide),
   normalizer_idempotent_amended.2 "anthropic.claude-opus-4-5@20251101".toList
     (by decide) (by decide) (by decide) (by decide) (by decide)⟩

/-- Swapping the two middle blocks of a four-block concatenation is a
permutation. -/
theorem perm_middle_swap {α : Type} (a b c d : List α) :
    ((a ++ c) ++ (b ++ d)).Perm ((a ++ b) ++ (c ++ d)) := by
  rw [List.append_assoc a c (b ++ d), List.append_assoc a b (c ++ d)]
  apply List.Perm.append_left
  rw [← List.append_assoc c b d, ← List.append_assoc b c d]
  exact (List.perm_append_comm).append_right d

/-- Overwriting a key absent from a map prefix passes over that prefix. -/
theorem mapSet_append_of_not_mem {β : Type} (m1 m2 : List (JStr × β)) (k : JStr) (v : β)
    (h : k ∉ m1.map Prod.fst) :
    mapSet (m1 ++ m2) k v = m1 ++ mapSet m2 k v := by
  induction m1 with
  | nil => rfl
  | cons p rest ih =>
    simp only [List.map_cons, List.mem_cons] at h
    push_neg at h
    cases p with
    | mk k' v' =>
      simp only [List.cons_append, mapSet]
      rw [if_neg (fun hk => h.1 (by rw [hk]))]
      exact congrArg ((k', v') :: ·) (ih h.2)

/-- The dedup keys of a line list, unfolded one line. -/
theorem keysOf_cons (dk : JStr → Option JStr) (line : ClaudeLogLine)
    (rest : List ClaudeLogLine) :
    ClaudeLogScanner.keysOf dk (line :: rest) =
      (((ClaudeLogScanner.processLine dk line).bind (·.2)).toList)
        ++ ClaudeLogScanner.keysOf dk rest := by
  unfold ClaudeLogScanner.keysOf
  rw [List.filterMap_cons]
  rcases (ClaudeLogScanner.processLine dk line).bind (·.2) with _ | k <;> simp

/-- The keys of a map after `mapSet` are the old keys plus possibly the new
one. -/
theorem mapSet_keys_mem {β : Type} (m : List (JStr × β)) (k' : JStr) (v : β) (k : JStr)
    (hx : k ∈ (mapSet m k' v).map Prod.fst) : k ∈ m.map Prod.fst ∨ k = k' := by
  induction m with
  | nil =>
    simp only [mapSet, List.map_cons, List.map_nil, List.mem_singleton] at hx
    exact .inr hx
  | cons p r ihm =>
    cases p with
    | mk pk pv =>
      by_cases hpk : pk = k'
      · rw [mapSet, if_pos hpk] at hx
        simp only [List.map_cons, List.mem_cons] at hx
        rcases hx with hx | hx
        · exact .inl (List.mem_cons.mpr (.inl hx))
        · exact .inl (List.mem_cons.mpr (.inr hx))
      · rw [mapSet, if_neg hpk] at hx
        simp only [List.map_cons, List.mem_cons] at hx
        rcases hx with hx | hx
        · exact .inl (List.mem_cons.mpr (.inl hx))
        · rcases ihm hx with hy | hy
          · exact .inl (List.mem_cons.mpr (.inr hy))
          · exact .inr hy

/-- Folding the Claude per-line step over lines whose keys avoid a map
prefix leaves that prefix (and the keyless prefix) untouched. -/
theorem claude_fold_shift (dk : JStr → Option JStr) :
    ∀ (lines : List ClaudeLogLine) (m1 : List (JStr × ClaudeUsageEntry))
      (k1 : List ClaudeUsageEntry) (m2 : List (JStr × ClaudeUsageEntry))
      (k2 : List ClaudeUsageEntry),
      (∀ k ∈ ClaudeLogScanner.keysOf dk lines, k ∉ m1.map Prod.fst) →
      lines.foldl (ClaudeLogScanner.step dk) (m1 ++ m2, k1 ++ k2) =
        (m1 ++ (lines.foldl (ClaudeLogScanner.step dk) (m2, k2)).1,
         k1 ++ (lines.foldl (ClaudeLogScanner.step dk) (m2, k2)).2) := by
  intro lines
  induction lines with
  | nil => intro m1 k1 m2 k2 _; rfl
  | cons line rest ih =>
    intro m1 k1 m2 k2 hd
    simp only [List.foldl_cons]
    have hkeys : ∀ k ∈ ClaudeLogScanner.keysOf dk rest, k ∉ m1.map Prod.fst := by
      intro k hk
      exact hd k (by rw [keysOf_cons]; exact List.mem_append.mpr (.inr hk))
    rcases hp : ClaudeLogScanner.processLine dk line with _ | ⟨e, _ | k⟩
    · have hs : ∀ (acc : ClaudeLogScanner.ParseAcc),
          ClaudeLogScanner.step dk acc line = acc := by
        intro acc; unfold ClaudeLogScanner.step; rw [hp]
      rw [hs, hs]
      exact ih m1 k1 m2 k2 hkeys
    · have hs : ∀ (acc : ClaudeLogScanner.ParseAcc),
          ClaudeLogScanner.step dk acc line = (acc.1, acc.2 ++ [e]) := by
        intro acc; unfold ClaudeLogScanner.step; rw [hp]
      rw [hs, hs]
      simp only [List.append_assoc]
      exact ih m1 k1 m2 (k2 ++ [e]) hkeys
    · have hs : ∀ (acc : ClaudeLogScanner.ParseAcc),
          ClaudeLogScanner.step dk acc line = (mapSet acc.1 k e, acc.2) := by
        intro acc; unfold ClaudeLogScanner.step; rw [hp]
      rw [hs, hs]
      have hknot : k ∉ m1.map Prod.fst := by
        apply hd
        rw [keysOf_cons, hp]
        simp
      rw [mapSet_append_of_not_mem m1 m2 k e hknot]
      exact ih m1 k1 (mapSet m2 k e) k2 hkeys

/-- Every key in the fold's dedup map comes from the initial accumulator or
from one of the folded lines. -/
theorem claude_fold_keys (dk : JStr → Option JStr) :
    ∀ (lines : List ClaudeLogLine) (acc : ClaudeLogScanner.ParseAcc) (k : JStr),
      k ∈ (lines.foldl (ClaudeLogScanner.step dk) acc).1.map Prod.fst →
      k ∈ acc.1.map Prod.fst ∨ k ∈ ClaudeLogScanner.keysOf dk lines := by
  intro lines
  induction lines with
  | nil => intro acc k hk; exact .inl hk
  | cons line rest ih =>
    intro acc k hk
    simp only [List.foldl_cons] at hk
    rcases ih _ k hk with h | h
    · rcases hp : ClaudeLogScanner.processLine dk line with _ | ⟨e, _ | k'⟩
      · unfold ClaudeLogScanner.step at h
        rw [hp] at h
        exact .inl h
      · unfold ClaudeLogScanner.step at h
        rw [hp] at h
        exact .inl h
      · unfold ClaudeLogScanner.step at h
        rw [hp] at h
        simp only at h
        rcases mapSet_keys_mem acc.1 k' e k h with hy | hy
        · exact .inl hy
        · right
          rw [keysOf_cons, hp]
          simp [hy]
    · right
      rw [keysOf_cons]
      exact List.mem_append.mpr (.inr h)

/-- Parsing a Codex file in two byte ranges, carrying the model and totals
state across the boundary, gives exactly the full parse (entries and final
state). -/
theorem codex_parseFile_append (dk : JStr → Option JStr) (l1 l2 : List CodexLogLine)
    (m0 : Option JStr) (t0 : Option CumulativeTotals) :
    CodexLogScanner.parseFile dk (l1 ++ l2) m0 t0 =
      ((CodexLogScanner.parseFile dk l1 m0 t0).1 ++
        (CodexLogScanner.parseFile dk l2
          (CodexLogScanner.parseFile dk l1 m0 t0).2.1
          (CodexLogScanner.parseFile dk l1 m0 t0).2.2).1,
       (CodexLogScanner.parseFile dk l2
          (CodexLogScanner.parseFile dk l1 m0 t0).2.1
          (CodexLogScanner.parseFile dk l1 m0 t0).2.2).2) := by
  induction l1 generalizing m0 t0 with
  | nil => simp [CodexLogScanner.parseFile]
  | cons line rest ih =>
    simp only [List.cons_append, List.append_eq, CodexLogScanner.parseFile]
    rw [ih]
    simp [List.append_assoc]

/-- Parsing two Claude fragments separately and concatenating gives a
permutation of the full parse, provided no dedup key occurs in both
fragments. -/
theorem claude_incremental_perm (dk : JStr → Option JStr) (f1 f2 : List ClaudeLogLine)
    (hd : List.Disjoint (ClaudeLogScanner.keysOf dk f1) (ClaudeLogScanner.keysOf dk f2)) :
    (ClaudeLogScanner.parseFile dk f1 ++ ClaudeLogScanner.parseFile dk f2).Perm
      (ClaudeLogScanner.parseFile dk (f1 ++ f2)) := by
  unfold ClaudeLogScanner.parseFile
  rw [List.foldl_append]
  have hshift : f2.foldl (ClaudeLogScanner.step dk)
      (f1.foldl (ClaudeLogScanner.step dk) ([], [])) =
      ((f1.foldl (ClaudeLogScanner.step dk) ([], [])).1 ++
        (f2.foldl (ClaudeLogScanner.step dk) ([], [])).1,
       (f1.foldl (ClaudeLogScanner.step dk) ([], [])).2 ++
        (f2.foldl (ClaudeLogScanner.step dk) ([], [])).2) := by
    have hhyp : ∀ k ∈ ClaudeLogScanner.keysOf dk f2,
        k ∉ (f1.foldl (ClaudeLogScanner.step dk) ([], [])).1.map Prod.fst := by
      intro k hk hmem
      rcases claude_fold_keys dk f1 ([], []) k hmem with h0 | h0
      · simp at h0
      · exact hd h0 hk
    have h := claude_fold_shift dk f2
      (f1.foldl (ClaudeLogScanner.step dk) ([], [])).1
      (f1.foldl (ClaudeLogScanner.step dk) ([], [])).2 [] [] hhyp
    simpa using h
  rw [hshift]
  simp only [List.map_append]
  exact perm_middle_swap _ _ _ _

-- ============================================================================
-- C1 — incremental scan versus full scan
-- ============================================================================

/-- First fragment of the C1 counterexample (one keyed line). -/
def c1Frag1 : List ClaudeLogLine :=
  [claudeAssistantLine "t1" "msg1" "req1" "m" 1 0 0 0]

/-- Second fragment of the C1 counterexample: same (message-id, request-id)
pair as the first fragment, different counts. -/
def c1Frag2 : List ClaudeLogLine :=
  [claudeAssistantLine "t2" "msg1" "req1" "m" 2 0 0 0]

/-- C1 counterexample: when a (message-id, request-id) pair occurs in both
fragments, the message-oriented scanner's incremental result (parse
fragment 1, then parse fragment 2 and append) retains both events, while a
full scan of the concatenation dedups them to one — the event sets differ,
so incremental-equals-full fails as stated. -/
theorem incremental_scan_claim_counterexample :
    ¬ ((ClaudeLogScanner.parseFile dayKeySample c1Frag1 ++
        ClaudeLogScanner.parseFile dayKeySample c1Frag2).Perm
       (ClaudeLogScanner.parseFile dayKeySample (c1Frag1 ++ c1Frag2))) := by decide

/-- C1 (amended): for the counter-oriented scanner, parsing an appended
byte range with the carried model/totals state gives exactly the same
entries and final state as one full parse, for every split point.  For the
message-oriented scanner, the incrementally merged event list is a
permutation of the full-scan list provided no (message-id, request-id)
dedup key occurs in both fragments; when a key straddles the boundary the
two differ (see the counterexample). -/
theorem incremental_equals_full_scan_amended :
    (∀ (dk : JStr → Option JStr) (l1 l2 : List CodexLogLine)
        (m0 : Option JStr) (t0 : Option CumulativeTotals),
      CodexLogScanner.parseFile dk (l1 ++ l2) m0 t0 =
        ((CodexLogScanner.parseFile dk l1 m0 t0).1 ++
          (CodexLogScanner.parseFile dk l2
            (CodexLogScanner.parseFile dk l1 m0 t0).2.1
            (CodexLogScanner.parseFile dk l1 m0 t0).2.2).1,
         (CodexLogScanner.parseFile dk l2
            (CodexLogScanner.parseFile dk l1 m0 t0).2.1
            (CodexLogScanner.parseFile dk l1 m0 t0).2.2).2)) ∧
    (∀ (dk : JStr → Option JStr) (f1 f2 : List ClaudeLogLine),
      List.Disjoint (ClaudeLogScanner.keysOf dk f1) (ClaudeLogScanner.keysOf dk f2) →
      (ClaudeLogScanner.parseFile dk f1 ++ ClaudeLogScanner.parseFile dk f2).Perm
        (ClaudeLogScanner.parseFile dk (f1 ++ f2))) :=
  ⟨fun dk l1 l2 m0 t0 => codex_parseFile_append dk l1 l2 m0 t0,
   fun dk f1 f2 hd => claude_incremental_perm dk f1 f2 hd⟩

/-- Key-disjoint fragments for the C1 witness. -/
def c1FragA : List ClaudeLogLine :=
  [claudeAssistantLine "t1" "msgA" "reqA" "m" 1 0 0 0]

/-- Second key-disjoint fragment for the C1 witness. -/
def c1FragB : List ClaudeLogLine :=
  [claudeAssistantLine "t2" "msgB" "reqB" "m" 2 0 0 0]

/-- C1 witness: the amended theorem applied to concrete key-disjoint
fragments (and a concrete split of a counter-oriented file). -/
theorem incremental_equals_full_scan_amended_witness :
    (CodexLogScanner.parseFile dayKeySample
        ([codexTotalLine "t1" 100 0 50] ++ [codexTotalLine "t2" 300 50 150])
        none none =
      ((CodexLogScanner.parseFile dayKeySample [codexTotalLine "t1" 100 0 50]
          none none).1 ++
        (CodexLogScanner.parseFile dayKeySample [codexTotalLine "t2" 300 50 150]
          (CodexLogScanner.parseFile dayKeySample [codexTotalLine "t1" 100 0 50]
            none none).2.1
          (CodexLogScanner.parseFile dayKeySample [codexTotalLine "t1" 100 0 50]
            none none).2.2).1,
       (CodexLogScanner.parseFile dayKeySample [codexTotalLine "t2" 300 50 150]
          (CodexLogScanner.parseFile dayKeySample [codexTotalLine "t1" 100 0 50]
            none none).2.1
          (CodexLogScanner.parseFile dayKeySample [codexTotalLine "t1" 100 0 50]
            none none).2.2).2)) ∧
    (ClaudeLogScanner.parseFile dayKeySample c1FragA ++
      ClaudeLogScanner.parseFile dayKeySample c1FragB).Perm
        (ClaudeLogScanner.parseFile dayKeySample (c1FragA ++ c1FragB)) := by
  constructor
  · exact incremental_equals_full_scan_amended.1 dayKeySample
      [codexTotalLine "t1" 100 0 50] [codexTotalLine "t2" 300 50 150] none none
  · apply incremental_equals_full_scan_amended.2
    have h1 : ClaudeLogScanner.keysOf dayKeySample c1FragA = ["msgA:reqA".toList] := by decide
    have h2 : ClaudeLogScanner.keysOf dayKeySample c1FragB = ["msgB:reqB".toList] := by decide
    rw [h1, h2]
    intro a ha hb
    rw [List.mem_singleton] at ha hb
    exact absurd (ha.symm.trans hb) (by decide)
